import Mathlib

/-!
# Jamulus mixer board: MIDI pickup bookkeeping and slot dispatch

A shallow embedding of the inline code of `src/audiomixerboard.h`:

* `CChannelFader`: the per-channel data members and the inline setters and
  getters (`SetMIDICtrlUsed`, the four pickup-bookkeeping setters, ...),
  and the slot `OnLevelValueChanged`;
* `CAudioMixerBoardSlots<slotId>`: the two per-slot handlers and the
  inheritance chain down to the empty specialisation for `0`;
* `CAudioMixerBoard`: `SetMIDIPickupMode` and `GetMIDICtrlUsed`;
* the group linking that `SendFaderLevelToServer` sets off, whose code is in
  `audiomixerboard.cpp`: it is modelled from section 4.4 of the specification.

Conventions.  C++ `int` values are `Int`; no arithmetic is done on them here
except `slotId - 1`, which is computed in `unsigned int` (modulo `2 ^ 32`)
and then converted to `int`.  C++ `double` is `Float`.  The handlers of
`CAudioMixerBoardSlots` only pass their `float` argument on, so its carrier
is a type parameter.  `MAX_NUM_CHANNELS` is a macro of `global.h`; it is a
parameter of everything that uses it.  The Qt widgets a fader points to, the
mutex and the `qDebug` output are outside the model.
-/

namespace Jamulus

/-! ## Data model -/

/-- Modelled from the spec: `CChannelInfo` is declared in `util.h`; the four
fields are the ones the getters `GetReceivedName`, `GetReceivedInstrument`,
`GetReceivedCity` and `GetReceivedChID` of `CChannelFader` read (the spec's
`name`, `instrument`, `city`, `serverChannelId`). -/
structure CChannelInfo where
  iChanID : Int
  strName : String
  iInstrument : Int
  strCity : String

/-- The value-typed data members of `CChannelFader`, in declaration order.
The enumerations `EGUIDesign` and `EMeterStyle` are kept as their underlying
integer. -/
structure CChannelFader where
  cReceivedChanInfo : CChannelInfo
  bOtherChannelIsSolo : Bool
  bIsMyOwnFader : Bool
  bIsMutedAtServer : Bool
  dPreviousFaderLevel : Float
  iGroupID : Int
  strGroupBaseText : String
  iRunningNewClientCnt : Int
  iInstrPicMaxWidth : Int
  eDesign : Int
  eMeterStyle : Int
  bMIDICtrlUsed : Bool
  iLastMIDIFaderVal : Int
  iLastMIDIPanVal : Int
  bFaderPickedUp : Bool
  bPanPickedUp : Bool

namespace CChannelFader

/-! ## Inline members of `CChannelFader` -/

def GetGroupID (s : CChannelFader) : Int := s.iGroupID

def GetPreviousFaderLevel (s : CChannelFader) : Float := s.dPreviousFaderLevel

def SetRunningNewClientCnt (s : CChannelFader) (iNRunningNewClientCnt : Int) : CChannelFader :=
  { s with iRunningNewClientCnt := iNRunningNewClientCnt }

def GetRunningNewClientCnt (s : CChannelFader) : Int := s.iRunningNewClientCnt

def SetIsMyOwnFader (s : CChannelFader) : CChannelFader :=
  { s with bIsMyOwnFader := true }

def GetIsMyOwnFader (s : CChannelFader) : Bool := s.bIsMyOwnFader

/-- The body of `SetMIDICtrlUsed`: store the flag, then reset the pickup
state, statement by statement. -/
def SetMIDICtrlUsed (s : CChannelFader) (isMIDICtrlUsed : Bool) : CChannelFader :=
  let s1 := { s with bMIDICtrlUsed := isMIDICtrlUsed }
  let s2 := { s1 with bFaderPickedUp := false }
  let s3 := { s2 with bPanPickedUp := false }
  let s4 := { s3 with iLastMIDIFaderVal := -1 }
  { s4 with iLastMIDIPanVal := -1 }

def GetMIDICtrlUsed (s : CChannelFader) : Bool := s.bMIDICtrlUsed

def SetLastMIDIFaderVal (s : CChannelFader) (iValue : Int) : CChannelFader :=
  { s with iLastMIDIFaderVal := iValue }

def GetLastMIDIFaderVal (s : CChannelFader) : Int := s.iLastMIDIFaderVal

def SetLastMIDIPanVal (s : CChannelFader) (iValue : Int) : CChannelFader :=
  { s with iLastMIDIPanVal := iValue }

def GetLastMIDIPanVal (s : CChannelFader) : Int := s.iLastMIDIPanVal

def SetFaderPickedUp (s : CChannelFader) (bValue : Bool) : CChannelFader :=
  { s with bFaderPickedUp := bValue }

def GetFaderPickedUp (s : CChannelFader) : Bool := s.bFaderPickedUp

def SetPanPickedUp (s : CChannelFader) (bValue : Bool) : CChannelFader :=
  { s with bPanPickedUp := bValue }

def GetPanPickedUp (s : CChannelFader) : Bool := s.bPanPickedUp

end CChannelFader

/-! ## Keyboard modifiers and `OnLevelValueChanged` -/

/-- The flag word of `Qt::KeyboardModifiers` (Qt's `QFlags` over the
enumeration `Qt::KeyboardModifier`), as the number its bits spell. -/
abbrev KeyboardModifiers := Nat

def NoModifier : KeyboardModifiers := 0x00000000
def ShiftModifier : KeyboardModifiers := 0x02000000
def ControlModifier : KeyboardModifiers := 0x04000000
def AltModifier : KeyboardModifiers := 0x08000000
def MetaModifier : KeyboardModifiers := 0x10000000
def KeypadModifier : KeyboardModifiers := 0x20000000
def GroupSwitchModifier : KeyboardModifiers := 0x40000000

/-- Qt's `QFlags::testFlag`: the modifier `flag` is held in `mods`. -/
def testFlag (mods flag : KeyboardModifiers) : Bool :=
  (mods &&& flag == flag) && (flag != 0 || mods == flag)

/-- The call `SendFaderLevelToServer ( dLevel, bIsGroupUpdate )` a fader
makes; the function itself is defined in `audiomixerboard.cpp`. -/
structure SendFaderLevelToServerCall where
  dLevel : Float
  bIsGroupUpdate : Bool

/-- The slot `OnLevelValueChanged ( int value )`.  `keyboardModifiers` is what
`QGuiApplication::keyboardModifiers()` returns when the slot runs; `value`
is converted from `int` to the `double` parameter. -/
def CChannelFader.OnLevelValueChanged (keyboardModifiers : KeyboardModifiers) (value : Int) :
    SendFaderLevelToServerCall :=
  { dLevel := Float.ofInt value
    bIsGroupUpdate := keyboardModifiers == ShiftModifier }

/-! ## `CAudioMixerBoardSlots<slotId>` -/

/-- Conversion of an `unsigned int` value to `int` (two's complement). -/
def unsignedToInt (u : Nat) : Int :=
  if u < 2 ^ 31 then (u : Int) else (u : Int) - 2 ^ 32

/-- The expression `slotId - 1` of the handlers: `slotId` is an
`unsigned int` template parameter, so the subtraction is modulo `2 ^ 32`,
and the result is converted to the `const int iChannelIdx` parameter. -/
def slotIdMinusOne (slotId : Nat) : Int :=
  unsignedToInt ((slotId + 2 ^ 32 - 1) % 2 ^ 32)

/-- A call of one of the two pure virtual functions of
`CAudioMixerBoardSlots`, with its arguments in order. -/
inductive SlotCall (F : Type) where
  | UpdateGainValue (iChannelIdx : Int) (fValue : F) (bIsMyOwnFader : Bool)
      (bIsGroupUpdate : Bool) (bSuppressServerUpdate : Bool) (dLevelRatio : Float)
  | UpdatePanValue (iChannelIdx : Int) (fValue : F)

namespace CAudioMixerBoardSlots

/-- The handler `OnChGainValueChanged` of the primary template. -/
def OnChGainValueChanged {F : Type} (slotId : Nat) (fValue : F) (bIsMyOwnFader : Bool)
    (bIsGroupUpdate : Bool) (bSuppressServerUpdate : Bool) (dLevelRatio : Float) : SlotCall F :=
  .UpdateGainValue (slotIdMinusOne slotId) fValue bIsMyOwnFader bIsGroupUpdate
    bSuppressServerUpdate dLevelRatio

/-- The handler `OnChPanValueChanged` of the primary template. -/
def OnChPanValueChanged {F : Type} (slotId : Nat) (fValue : F) : SlotCall F :=
  .UpdatePanValue (slotIdMinusOne slotId) fValue

/-- The direct base class: the primary template derives from
`CAudioMixerBoardSlots<slotId - 1>`, the specialisation for `0` from nothing. -/
def baseClass : Nat → Option Nat
  | 0 => none
  | slotId + 1 => some slotId

/-- Whether the class declares the two handlers: the primary template does,
the specialisation for `0` has an empty body. -/
def declaresHandlers : Nat → Bool
  | 0 => false
  | _ + 1 => true

/-- The class `CAudioMixerBoardSlots<slotId>` followed by all its base
classes, obtained by following `baseClass`. -/
def inheritanceChain : Nat → List Nat
  | 0 => [0]
  | slotId + 1 => (slotId + 1) :: inheritanceChain slotId

end CAudioMixerBoardSlots

/-! ## `CAudioMixerBoard` -/

/-- The value-typed data members of `CAudioMixerBoard`, in declaration order.
`vecpChanFader` holds the faders the pointers of the `CVector` point to;
the enumerations `ERecorderState` and `EChSortType` are kept as their
underlying integer. -/
structure CAudioMixerBoard where
  vecpChanFader : List CChannelFader
  bDisplayPans : Bool
  bIsPanSupported : Bool
  bNoFaderVisible : Bool
  iMyChannelID : Int
  iRunningNewClientCnt : Int
  iNumMixerPanelRows : Int
  strServerName : String
  eRecorderState : Int
  eChSortType : Int
  vecAvgLevels : List Float
  bMIDIPickupModeEnabled : Bool

/-- What stops a run short of its result. -/
inductive Fault where
  /-- `vecpChanFader[i]` with `i` not below the size of the vector. -/
  | outOfBounds (i : Nat)
  /-- The step budget of a loop is used up. -/
  | outOfFuel
  deriving DecidableEq, Repr

/-- What a run did to the slot array: the indices of the element accesses
`vecpChanFader[...]`, and the values of the loop counter with which the loop
body was entered, both in order. -/
structure Trace where
  accesses : List Nat
  iterations : List Nat
  deriving DecidableEq, Repr

def Trace.empty : Trace := { accesses := [], iterations := [] }

/-- The element access `vecpChanFader[i]`, which C++ does not check. -/
def slotAt (vec : List CChannelFader) (tr : Trace) (i : Nat) :
    Except Fault (CChannelFader × Trace) :=
  match vec[i]? with
  | none => .error (.outOfBounds i)
  | some ch => .ok (ch, { tr with accesses := tr.accesses ++ [i] })

/-- A call `vecpChanFader[i]->f ( ... )` of a member function that updates
the fader. -/
def callOnSlot (vec : List CChannelFader) (tr : Trace) (i : Nat)
    (f : CChannelFader → CChannelFader) : Except Fault (List CChannelFader × Trace) :=
  match slotAt vec tr i with
  | .error e => .error e
  | .ok (ch, tr1) => .ok (vec.set i (f ch), tr1)

namespace CAudioMixerBoard

/-- The body of the loop of `SetMIDIPickupMode` for the counter value `i`. -/
def SetMIDIPickupMode.body (i : Nat) (vec : List CChannelFader) (tr : Trace) :
    Except Fault (List CChannelFader × Trace) :=
  match slotAt vec tr i with
  | .error e => .error e
  | .ok (ch, tr0) =>
    if ch.GetMIDICtrlUsed then
      match callOnSlot vec tr0 i (fun c => c.SetFaderPickedUp false) with
      | .error e => .error e
      | .ok (vec1, tr1) =>
      match callOnSlot vec1 tr1 i (fun c => c.SetPanPickedUp false) with
      | .error e => .error e
      | .ok (vec2, tr2) =>
      match callOnSlot vec2 tr2 i (fun c => c.SetLastMIDIFaderVal (-1)) with
      | .error e => .error e
      | .ok (vec3, tr3) =>
      callOnSlot vec3 tr3 i (fun c => c.SetLastMIDIPanVal (-1))
    else
      .ok (vec, tr0)

/-- The loop `for ( size_t i = 0; i < MAX_NUM_CHANNELS; i++ )`, from the
counter value `i` on; each pass through the body costs one unit of fuel. -/
def SetMIDIPickupMode.loop (MAX_NUM_CHANNELS : Nat) :
    Nat → Nat → List CChannelFader → Trace → Except Fault (List CChannelFader × Trace)
  | 0, i, vec, tr =>
    if i < MAX_NUM_CHANNELS then .error .outOfFuel else .ok (vec, tr)
  | fuel + 1, i, vec, tr =>
    if i < MAX_NUM_CHANNELS then
      match SetMIDIPickupMode.body i vec { tr with iterations := tr.iterations ++ [i] } with
      | .error e => .error e
      | .ok (vec1, tr1) => SetMIDIPickupMode.loop MAX_NUM_CHANNELS fuel (i + 1) vec1 tr1
    else
      .ok (vec, tr)

/-- The function `SetMIDIPickupMode ( const bool bIsMIDIPickupMode )`: store
the mode, then run the loop over the slots. -/
def SetMIDIPickupMode (MAX_NUM_CHANNELS : Nat) (fuel : Nat) (board : CAudioMixerBoard)
    (bIsMIDIPickupMode : Bool) : Except Fault (CAudioMixerBoard × Trace) :=
  let board1 := { board with bMIDIPickupModeEnabled := bIsMIDIPickupMode }
  match SetMIDIPickupMode.loop MAX_NUM_CHANNELS fuel 0 board1.vecpChanFader Trace.empty with
  | .error e => .error e
  | .ok (vec, tr) => .ok ({ board1 with vecpChanFader := vec }, tr)

/-- The function `GetMIDICtrlUsed ( const int iChannelIdx )`; the cast
`static_cast<size_t> ( iChannelIdx )` is modulo `2 ^ 64`. -/
def GetMIDICtrlUsed (MAX_NUM_CHANNELS : Nat) (board : CAudioMixerBoard) (iChannelIdx : Int) :
    Except Fault (Bool × Trace) :=
  if iChannelIdx ≥ 0 ∧ iChannelIdx < (MAX_NUM_CHANNELS : Int) then
    match slotAt board.vecpChanFader Trace.empty (iChannelIdx % 2 ^ 64).toNat with
    | .error e => .error e
    | .ok (ch, tr) => .ok (ch.GetMIDICtrlUsed, tr)
  else
    .ok (false, Trace.empty)

end CAudioMixerBoard

/-! ## Group linking behind `SendFaderLevelToServer` -/

/-- Modelled from the spec: the slot type that `SendFaderLevelToServer` and
`UpdateGainValue` of `audiomixerboard.cpp` work on is not part of the header's
inline code; these are the attributes of a `ChannelSlot` (spec section 3) that
group linking reads: the fader level, the group id (absent when ungrouped) and
whether the slot is occupied. -/
structure ChannelSlot where
  faderLevel : Int
  groupId : Option Int
  occupied : Bool
  deriving DecidableEq, Repr

/-- Modelled from the spec: the clamping of `SetFaderLevel`, defined in
`audiomixerboard.cpp` (spec section 4.1: the value is clamped into the valid
range); the bounds of the range are parameters. -/
def clampLevel (lo hi value : Int) : Int :=
  max lo (min hi value)

/-- Modelled from the spec: the pass over the other slots that
`UpdateGainValue` of `audiomixerboard.cpp` makes (spec section 4.4): every
other occupied slot sharing the group id `g` moves by `delta`, clamped at its
own bounds.  `j` is the index of the head of the list. -/
def applyGroupDelta (lo hi delta g : Int) (src : Nat) : Nat → List ChannelSlot → List ChannelSlot
  | _, [] => []
  | j, slot :: rest =>
    (if j ≠ src ∧ slot.occupied = true ∧ slot.groupId = some g then
      { slot with faderLevel := clampLevel lo hi (slot.faderLevel + delta) }
     else slot) :: applyGroupDelta lo hi delta g src (j + 1) rest

/-- Modelled from the spec: the effect of `SendFaderLevelToServer ( dLevel,
bIsGroupUpdate )` on the slots, whose body and whose receiver
`UpdateGainValue` are defined in `audiomixerboard.cpp` (spec section 4.4,
GroupLinkEngine).  The fader of slot `src` moves to `newValue`, clamped; when
the move is not flagged as a group update and the slot is grouped,
`delta = newValue - previousValue` is applied to every other occupied slot of
the same group; a move flagged as a group update moves the originating slot
only.  `slots` is the state before the move, so the level of slot `src` in it
is the previous value. -/
def GroupLinkEngine (lo hi : Int) (slots : List ChannelSlot) (src : Nat) (newValue : Int)
    (bIsGroupUpdate : Bool) : List ChannelSlot :=
  match slots[src]? with
  | none => slots
  | some origin =>
    let moved := slots.set src { origin with faderLevel := clampLevel lo hi newValue }
    if bIsGroupUpdate then moved
    else
      match origin.groupId with
      | none => moved
      | some g => applyGroupDelta lo hi (newValue - origin.faderLevel) g src 0 moved

/-! ## Specification helpers -/

/-- The net effect of one pass of the loop of `SetMIDIPickupMode` on the
fader it visits, used to state the loop lemmas. -/
def resetIfUsed (ch : CChannelFader) : CChannelFader :=
  if ch.bMIDICtrlUsed then
    { ch with iLastMIDIFaderVal := -1, iLastMIDIPanVal := -1,
              bFaderPickedUp := false, bPanPickedUp := false }
  else ch

/-- The element accesses of one pass of the loop body on the fader `ch` at
index `i`: the read of the flag, and four setter calls when it is set. -/
def bodyAccesses (i : Nat) (ch : CChannelFader) : List Nat :=
  if ch.bMIDICtrlUsed then [i, i, i, i, i] else [i]

/-! ## Sample states -/

def sampleInfo : CChannelInfo :=
  { iChanID := 3, strName := "alto", iInstrument := 7, strCity := "Graz" }

/-- A fader under controller control with both axes picked up. -/
def sampleFader : CChannelFader :=
  { cReceivedChanInfo := sampleInfo
    bOtherChannelIsSolo := false
    bIsMyOwnFader := true
    bIsMutedAtServer := false
    dPreviousFaderLevel := Float.ofInt 40
    iGroupID := 2
    strGroupBaseText := "Grp"
    iRunningNewClientCnt := 5
    iInstrPicMaxWidth := 25
    eDesign := 0
    eMeterStyle := 1
    bMIDICtrlUsed := true
    iLastMIDIFaderVal := 64
    iLastMIDIPanVal := 17
    bFaderPickedUp := true
    bPanPickedUp := true }

/-- The same fader without controller control. -/
def sampleFreeFader : CChannelFader :=
  { sampleFader with bMIDICtrlUsed := false }

/-- A board of three slots, the middle one not under controller control. -/
def sampleBoard : CAudioMixerBoard :=
  { vecpChanFader := [sampleFader, sampleFreeFader, sampleFader]
    bDisplayPans := true
    bIsPanSupported := true
    bNoFaderVisible := false
    iMyChannelID := 0
    iRunningNewClientCnt := 5
    iNumMixerPanelRows := 1
    strServerName := "srv"
    eRecorderState := 0
    eChSortType := 0
    vecAvgLevels := []
    bMIDIPickupModeEnabled := false }

/-- Three occupied slots: slots `0` and `1` share group `1`, slot `2` is
ungrouped. -/
def sampleSlots : List ChannelSlot :=
  [ { faderLevel := 20, groupId := some 1, occupied := true },
    { faderLevel := 20, groupId := some 1, occupied := true },
    { faderLevel := 70, groupId := none, occupied := true } ]

/-! ## Theorems: `CChannelFader` -/

/-- C1: for every channel state and every boolean `b`, after
`SetMIDICtrlUsed ( b )` both axes are not picked up and both last controller
values are the sentinel `-1`, whatever the four fields held before and
whether or not `b` equals the previous controller-in-use flag. -/
theorem SetMIDICtrlUsed_resets_pickup (s : CChannelFader) (b : Bool) :
    (s.SetMIDICtrlUsed b).GetFaderPickedUp = false ∧
    (s.SetMIDICtrlUsed b).GetPanPickedUp = false ∧
    (s.SetMIDICtrlUsed b).GetLastMIDIFaderVal = -1 ∧
    (s.SetMIDICtrlUsed b).GetLastMIDIPanVal = -1 :=
  ⟨rfl, rfl, rfl, rfl⟩

/-- C5: `SetMIDICtrlUsed ( b )` followed by `GetMIDICtrlUsed ()` returns `b`,
and the call leaves the group id, the previous fader level, the own-fader
flag, the running new-client count and the received channel info as they
were; putting the old values of the controller-in-use flag and of the four
pickup fields back gives the old state, so no other member changed. -/
theorem SetMIDICtrlUsed_get_and_frame (s : CChannelFader) (b : Bool) :
    (s.SetMIDICtrlUsed b).GetMIDICtrlUsed = b ∧
    (s.SetMIDICtrlUsed b).GetGroupID = s.GetGroupID ∧
    (s.SetMIDICtrlUsed b).GetPreviousFaderLevel = s.GetPreviousFaderLevel ∧
    (s.SetMIDICtrlUsed b).GetIsMyOwnFader = s.GetIsMyOwnFader ∧
    (s.SetMIDICtrlUsed b).GetRunningNewClientCnt = s.GetRunningNewClientCnt ∧
    (s.SetMIDICtrlUsed b).cReceivedChanInfo = s.cReceivedChanInfo ∧
    { s.SetMIDICtrlUsed b with
        bMIDICtrlUsed := s.bMIDICtrlUsed
        iLastMIDIFaderVal := s.iLastMIDIFaderVal
        iLastMIDIPanVal := s.iLastMIDIPanVal
        bFaderPickedUp := s.bFaderPickedUp
        bPanPickedUp := s.bPanPickedUp } = s :=
  ⟨rfl, rfl, rfl, rfl, rfl, rfl, rfl⟩

/-- C6: each of `SetLastMIDIFaderVal`, `SetLastMIDIPanVal`, `SetFaderPickedUp`
and `SetPanPickedUp` is a pure setter: the matching getter returns the
argument afterwards, the other three pickup fields and the
controller-in-use flag are unchanged, and putting the old value of the one
field back gives the old state. -/
theorem pickup_setters_pure (s : CChannelFader) (x y : Int) (p q : Bool) :
    ((s.SetLastMIDIFaderVal x).GetLastMIDIFaderVal = x ∧
      (s.SetLastMIDIFaderVal x).GetLastMIDIPanVal = s.GetLastMIDIPanVal ∧
      (s.SetLastMIDIFaderVal x).GetFaderPickedUp = s.GetFaderPickedUp ∧
      (s.SetLastMIDIFaderVal x).GetPanPickedUp = s.GetPanPickedUp ∧
      (s.SetLastMIDIFaderVal x).GetMIDICtrlUsed = s.GetMIDICtrlUsed ∧
      { s.SetLastMIDIFaderVal x with iLastMIDIFaderVal := s.iLastMIDIFaderVal } = s) ∧
    ((s.SetLastMIDIPanVal y).GetLastMIDIPanVal = y ∧
      (s.SetLastMIDIPanVal y).GetLastMIDIFaderVal = s.GetLastMIDIFaderVal ∧
      (s.SetLastMIDIPanVal y).GetFaderPickedUp = s.GetFaderPickedUp ∧
      (s.SetLastMIDIPanVal y).GetPanPickedUp = s.GetPanPickedUp ∧
      (s.SetLastMIDIPanVal y).GetMIDICtrlUsed = s.GetMIDICtrlUsed ∧
      { s.SetLastMIDIPanVal y with iLastMIDIPanVal := s.iLastMIDIPanVal } = s) ∧
    ((s.SetFaderPickedUp p).GetFaderPickedUp = p ∧
      (s.SetFaderPickedUp p).GetLastMIDIFaderVal = s.GetLastMIDIFaderVal ∧
      (s.SetFaderPickedUp p).GetLastMIDIPanVal = s.GetLastMIDIPanVal ∧
      (s.SetFaderPickedUp p).GetPanPickedUp = s.GetPanPickedUp ∧
      (s.SetFaderPickedUp p).GetMIDICtrlUsed = s.GetMIDICtrlUsed ∧
      { s.SetFaderPickedUp p with bFaderPickedUp := s.bFaderPickedUp } = s) ∧
    ((s.SetPanPickedUp q).GetPanPickedUp = q ∧
      (s.SetPanPickedUp q).GetLastMIDIFaderVal = s.GetLastMIDIFaderVal ∧
      (s.SetPanPickedUp q).GetLastMIDIPanVal = s.GetLastMIDIPanVal ∧
      (s.SetPanPickedUp q).GetFaderPickedUp = s.GetFaderPickedUp ∧
      (s.SetPanPickedUp q).GetMIDICtrlUsed = s.GetMIDICtrlUsed ∧
      { s.SetPanPickedUp q with bPanPickedUp := s.bPanPickedUp } = s) :=
  ⟨⟨rfl, rfl, rfl, rfl, rfl, rfl⟩, ⟨rfl, rfl, rfl, rfl, rfl, rfl⟩,
   ⟨rfl, rfl, rfl, rfl, rfl, rfl⟩, ⟨rfl, rfl, rfl, rfl, rfl, rfl⟩⟩

/-! ## Theorems: `OnLevelValueChanged` -/

/-- A modifier word that holds Shift and a modifier outside Shift is not the
word of Shift alone. -/
theorem shift_or_other_ne (other : KeyboardModifiers) (hne : other ≠ 0)
    (hdisj : other &&& ShiftModifier = 0) : ShiftModifier ||| other ≠ ShiftModifier := by
  intro h
  apply hne
  have habs : other &&& (ShiftModifier ||| other) = other := by
    apply Nat.eq_of_testBit_eq
    intro i
    simp only [Nat.testBit_and, Nat.testBit_or]
    cases other.testBit i <;> simp
  rw [h, hdisj] at habs
  exact habs.symm

/-- C3, at a concrete input: with Shift and Ctrl both held, Shift is held
(`testFlag` says so), yet `OnLevelValueChanged ( 5 )` passes the group-update
flag `false`, so the call is not the isolating one; and on the sample slots,
where slots `0` and `1` share a group, the move of slot `0` from `20` to `40`
made with this flag changes the fader of slot `1` from `20` to `40`. -/
theorem OnLevelValueChanged_shift_ctrl_not_isolated :
    testFlag (ShiftModifier ||| ControlModifier) ShiftModifier = true ∧
    (CChannelFader.OnLevelValueChanged (ShiftModifier ||| ControlModifier) 5).bIsGroupUpdate
      = false ∧
    CChannelFader.OnLevelValueChanged (ShiftModifier ||| ControlModifier) 5
      ≠ { dLevel := Float.ofInt 5, bIsGroupUpdate := true } ∧
    sampleSlots[1]? = some { faderLevel := 20, groupId := some 1, occupied := true } ∧
    (GroupLinkEngine 0 100 sampleSlots 0 40
        (CChannelFader.OnLevelValueChanged (ShiftModifier ||| ControlModifier) 40).bIsGroupUpdate)[1]?
      = some { faderLevel := 40, groupId := some 1, occupied := true } := by
  refine ⟨by decide, by decide, ?_, by decide, by decide⟩
  intro h
  have h2 := congrArg SendFaderLevelToServerCall.bIsGroupUpdate h
  revert h2
  decide

/-- C3, amended: when the held keyboard modifiers are exactly Shift, moving a
channel's fader through the GUI never changes any other slot, so no other
group member's fader: for every value `v` the slot `OnLevelValueChanged ( v )`
passes `v`, converted to `double`, to `SendFaderLevelToServer` with the
group-update flag `true`, and the move made with this flag leaves every slot
other than the originating one as it was, keeps the number of slots, and puts
the originating fader at `v` clamped. -/
theorem OnLevelValueChanged_shift_only (mods : KeyboardModifiers) (v : Int) (lo hi : Int)
    (slots : List ChannelSlot) (src : Nat) (h : mods = ShiftModifier) :
    CChannelFader.OnLevelValueChanged mods v
      = { dLevel := Float.ofInt v, bIsGroupUpdate := true } ∧
    (∀ j, j ≠ src →
      (GroupLinkEngine lo hi slots src v
          (CChannelFader.OnLevelValueChanged mods v).bIsGroupUpdate)[j]? = slots[j]?) ∧
    (GroupLinkEngine lo hi slots src v
        (CChannelFader.OnLevelValueChanged mods v).bIsGroupUpdate).length = slots.length ∧
    (∀ origin, slots[src]? = some origin →
      (GroupLinkEngine lo hi slots src v
          (CChannelFader.OnLevelValueChanged mods v).bIsGroupUpdate)[src]?
        = some { origin with faderLevel := clampLevel lo hi v }) := by
  subst h
  have hflag : (CChannelFader.OnLevelValueChanged ShiftModifier v).bIsGroupUpdate = true := by
    simp [CChannelFader.OnLevelValueChanged]
  rw [hflag]
  refine ⟨rfl, ?_, ?_, ?_⟩
  · intro j hj
    unfold GroupLinkEngine
    cases hsrc : slots[src]? with
    | none => rfl
    | some origin =>
      simp only [if_true]
      exact List.getElem?_set_ne (Ne.symm hj)
  · unfold GroupLinkEngine
    cases hsrc : slots[src]? with
    | none => rfl
    | some origin =>
      simp only [if_true]
      exact List.length_set _ _ _
  · intro origin horigin
    unfold GroupLinkEngine
    rw [horigin]
    simp only [if_true]
    have hlt : src < slots.length := by
      rcases Nat.lt_or_ge src slots.length with hlt | hge
      · exact hlt
      · rw [List.getElem?_eq_none hge] at horigin
        cases horigin
    simp [List.getElem?_set, hlt]

theorem OnLevelValueChanged_shift_only_witness :
    CChannelFader.OnLevelValueChanged 0x02000000 40
      = { dLevel := Float.ofInt 40, bIsGroupUpdate := true } ∧
    (GroupLinkEngine 0 100 sampleSlots 0 40
        (CChannelFader.OnLevelValueChanged 0x02000000 40).bIsGroupUpdate)[1]? = sampleSlots[1]? :=
  ⟨(OnLevelValueChanged_shift_only 0x02000000 40 0 100 sampleSlots 0 rfl).1,
   (OnLevelValueChanged_shift_only 0x02000000 40 0 100 sampleSlots 0 rfl).2.1 1 (by decide)⟩

/-- C10: the flag `OnLevelValueChanged` passes on is `true` if and only if
the held modifiers are exactly Shift; with no modifier, and with Shift held
together with any other modifier, the flag is `false`; and whenever the flag
is `false` the call is the ordinary one, `v` with group-update `false`. -/
theorem OnLevelValueChanged_flag_iff (mods : KeyboardModifiers) (v : Int) :
    ((CChannelFader.OnLevelValueChanged mods v).bIsGroupUpdate = true ↔ mods = ShiftModifier) ∧
    (CChannelFader.OnLevelValueChanged NoModifier v).bIsGroupUpdate = false ∧
    (∀ other : KeyboardModifiers, other ≠ 0 → other &&& ShiftModifier = 0 →
      (CChannelFader.OnLevelValueChanged (ShiftModifier ||| other) v).bIsGroupUpdate = false) ∧
    (mods ≠ ShiftModifier →
      CChannelFader.OnLevelValueChanged mods v
        = { dLevel := Float.ofInt v, bIsGroupUpdate := false }) := by
  refine ⟨?_, ?_, ?_, ?_⟩
  · simp [CChannelFader.OnLevelValueChanged]
  · simp [CChannelFader.OnLevelValueChanged, NoModifier, ShiftModifier]
  · intro other hne hdisj
    have := shift_or_other_ne other hne hdisj
    simp [CChannelFader.OnLevelValueChanged, this]
  · intro hne
    simp [CChannelFader.OnLevelValueChanged, hne]

theorem OnLevelValueChanged_flag_iff_witness :
    (CChannelFader.OnLevelValueChanged (ShiftModifier ||| AltModifier) 12).bIsGroupUpdate = false ∧
    CChannelFader.OnLevelValueChanged ControlModifier 12
      = { dLevel := Float.ofInt 12, bIsGroupUpdate := false } :=
  ⟨(OnLevelValueChanged_flag_iff ControlModifier 12).2.2.1 AltModifier (by decide) (by decide),
   (OnLevelValueChanged_flag_iff ControlModifier 12).2.2.2 (by decide)⟩

/-! ## Theorems: `CAudioMixerBoardSlots` -/

theorem slotIdMinusOne_eq (slotId : Nat) (h1 : 1 ≤ slotId) (h2 : slotId ≤ 2 ^ 31) :
    slotIdMinusOne slotId = (slotId : Int) - 1 := by
  unfold slotIdMinusOne unsignedToInt
  have hmod : (slotId + 2 ^ 32 - 1) % 2 ^ 32 = slotId - 1 := by omega
  rw [hmod, if_pos (by omega)]
  omega

theorem inheritanceChain_eq (n : Nat) :
    CAudioMixerBoardSlots.inheritanceChain n = (List.range (n + 1)).reverse := by
  induction n with
  | zero => rfl
  | succ k ih =>
    rw [CAudioMixerBoardSlots.inheritanceChain, ih, List.range_succ (k + 1), List.reverse_append]
    rfl

theorem inheritanceChain_base (n : Nat) :
    ∀ k ∈ CAudioMixerBoardSlots.inheritanceChain n, ∀ j,
      CAudioMixerBoardSlots.baseClass k = some j → j ∈ CAudioMixerBoardSlots.inheritanceChain n := by
  intro k hk j hj
  rw [inheritanceChain_eq] at hk ⊢
  simp only [List.mem_reverse, List.mem_range] at hk ⊢
  cases k with
  | zero => simp [CAudioMixerBoardSlots.baseClass] at hj
  | succ m =>
    simp only [CAudioMixerBoardSlots.baseClass, Option.some.injEq] at hj
    omega

/-- C7: for every `slotId` in `[1, MAX_NUM_CHANNELS]` the handler
`OnChGainValueChanged` calls `UpdateGainValue` with channel index
`slotId - 1` and the other five arguments unchanged, and
`OnChPanValueChanged ( f )` calls `UpdatePanValue ( slotId - 1, f )`; the
index lies in `[0, MAX_NUM_CHANNELS)`, distinct slots make distinct calls
and every index of `[0, MAX_NUM_CHANNELS)` is the index some slot calls
with; the inheritance chain from `MAX_NUM_CHANNELS` is finite, is closed
under taking the base class, holds exactly the handler-declaring classes
`1 .. MAX_NUM_CHANNELS` and ends at class `0`, which has no base and no
handlers. -/
theorem slot_handlers_channel_index {F : Type} (MAX_NUM_CHANNELS : Nat)
    (hmax : MAX_NUM_CHANNELS < 2 ^ 31) :
    (∀ slotId, 1 ≤ slotId → slotId ≤ MAX_NUM_CHANNELS →
      ∀ (f : F) (own grp suppress : Bool) (ratio : Float),
        CAudioMixerBoardSlots.OnChGainValueChanged slotId f own grp suppress ratio
          = SlotCall.UpdateGainValue ((slotId : Int) - 1) f own grp suppress ratio ∧
        CAudioMixerBoardSlots.OnChPanValueChanged slotId f
          = SlotCall.UpdatePanValue ((slotId : Int) - 1) f ∧
        0 ≤ (slotId : Int) - 1 ∧ (slotId : Int) - 1 < (MAX_NUM_CHANNELS : Int)) ∧
    (∀ s t, 1 ≤ s → s ≤ MAX_NUM_CHANNELS → 1 ≤ t → t ≤ MAX_NUM_CHANNELS →
      ∀ (f : F) (own grp suppress : Bool) (ratio : Float),
        (CAudioMixerBoardSlots.OnChGainValueChanged s f own grp suppress ratio
          = CAudioMixerBoardSlots.OnChGainValueChanged t f own grp suppress ratio → s = t) ∧
        (CAudioMixerBoardSlots.OnChPanValueChanged s f
          = CAudioMixerBoardSlots.OnChPanValueChanged t f → s = t)) ∧
    (∀ c : Int, 0 ≤ c → c < (MAX_NUM_CHANNELS : Int) → ∃ s, 1 ≤ s ∧ s ≤ MAX_NUM_CHANNELS ∧
      ∀ (f : F) (own grp suppress : Bool) (ratio : Float),
        CAudioMixerBoardSlots.OnChGainValueChanged s f own grp suppress ratio
          = SlotCall.UpdateGainValue c f own grp suppress ratio ∧
        CAudioMixerBoardSlots.OnChPanValueChanged s f = SlotCall.UpdatePanValue c f) ∧
    (CAudioMixerBoardSlots.inheritanceChain MAX_NUM_CHANNELS).length = MAX_NUM_CHANNELS + 1 ∧
    (CAudioMixerBoardSlots.inheritanceChain MAX_NUM_CHANNELS).head? = some MAX_NUM_CHANNELS ∧
    (CAudioMixerBoardSlots.inheritanceChain MAX_NUM_CHANNELS).getLast? = some 0 ∧
    (∀ k ∈ CAudioMixerBoardSlots.inheritanceChain MAX_NUM_CHANNELS, ∀ j,
      CAudioMixerBoardSlots.baseClass k = some j →
        j ∈ CAudioMixerBoardSlots.inheritanceChain MAX_NUM_CHANNELS) ∧
    (∀ k, (k ∈ CAudioMixerBoardSlots.inheritanceChain MAX_NUM_CHANNELS ∧
        CAudioMixerBoardSlots.declaresHandlers k = true) ↔ (1 ≤ k ∧ k ≤ MAX_NUM_CHANNELS)) ∧
    CAudioMixerBoardSlots.baseClass 0 = none ∧
    CAudioMixerBoardSlots.declaresHandlers 0 = false := by
  refine ⟨?_, ?_, ?_, ?_, ?_, ?_, inheritanceChain_base MAX_NUM_CHANNELS, ?_, rfl, rfl⟩
  · intro slotId h1 h2 f own grp suppress ratio
    have hidx := slotIdMinusOne_eq slotId h1 (by omega)
    refine ⟨?_, ?_, by omega, by omega⟩
    · simp only [CAudioMixerBoardSlots.OnChGainValueChanged, hidx]
    · simp only [CAudioMixerBoardSlots.OnChPanValueChanged, hidx]
  · intro s t hs1 hs2 ht1 ht2 f own grp suppress ratio
    have es := slotIdMinusOne_eq s hs1 (by omega)
    have et := slotIdMinusOne_eq t ht1 (by omega)
    constructor
    · intro h
      simp only [CAudioMixerBoardSlots.OnChGainValueChanged, es, et,
        SlotCall.UpdateGainValue.injEq, and_true] at h
      omega
    · intro h
      simp only [CAudioMixerBoardSlots.OnChPanValueChanged, es, et,
        SlotCall.UpdatePanValue.injEq, and_true] at h
      omega
  · intro c hc0 hc1
    refine ⟨c.toNat + 1, by omega, by omega, ?_⟩
    intro f own grp suppress ratio
    have hidx := slotIdMinusOne_eq (c.toNat + 1) (by omega) (by omega)
    have hc : ((c.toNat + 1 : Nat) : Int) - 1 = c := by omega
    rw [hc] at hidx
    constructor
    · simp only [CAudioMixerBoardSlots.OnChGainValueChanged, hidx]
    · simp only [CAudioMixerBoardSlots.OnChPanValueChanged, hidx]
  · simp [inheritanceChain_eq]
  · cases MAX_NUM_CHANNELS <;> rfl
  · rw [inheritanceChain_eq, List.getLast?_reverse, List.range_succ_eq_map]
    rfl
  · intro k
    rw [inheritanceChain_eq]
    simp only [List.mem_reverse, List.mem_range]
    cases k with
    | zero => simp [CAudioMixerBoardSlots.declaresHandlers]
    | succ m =>
      simp only [CAudioMixerBoardSlots.declaresHandlers, and_true]
      omega

theorem slot_handlers_channel_index_witness :
    (CAudioMixerBoardSlots.OnChGainValueChanged 150 (7 : Nat) true false true (Float.ofInt 1)
        = SlotCall.UpdateGainValue (((150 : Nat) : Int) - 1) (7 : Nat) true false true
            (Float.ofInt 1)) ∧
    CAudioMixerBoardSlots.OnChPanValueChanged 1 (7 : Nat)
        = SlotCall.UpdatePanValue (((1 : Nat) : Int) - 1) (7 : Nat) :=
  ⟨((slot_handlers_channel_index 150 (by decide)).1 150 (by decide) (by decide)
      (7 : Nat) true false true (Float.ofInt 1)).1,
   ((slot_handlers_channel_index 150 (by decide)).1 1 (by decide) (by decide)
      (7 : Nat) true false true (Float.ofInt 1)).2.1⟩

/-! ## Lemmas: element access and the loop of `SetMIDIPickupMode` -/

theorem slotAt_some {vec : List CChannelFader} {i : Nat} {ch : CChannelFader} (tr : Trace)
    (h : vec[i]? = some ch) :
    slotAt vec tr i = .ok (ch, { tr with accesses := tr.accesses ++ [i] }) := by
  simp only [slotAt, h]

theorem callOnSlot_some {vec : List CChannelFader} {i : Nat} {ch : CChannelFader} (tr : Trace)
    (f : CChannelFader → CChannelFader) (h : vec[i]? = some ch) :
    callOnSlot vec tr i f = .ok (vec.set i (f ch), { tr with accesses := tr.accesses ++ [i] }) := by
  simp only [callOnSlot, slotAt_some tr h]

theorem getElem?_set_same {vec : List CChannelFader} {i : Nat} {ch : CChannelFader}
    (x : CChannelFader) (h : vec[i]? = some ch) : (vec.set i x)[i]? = some x := by
  have hlt : i < vec.length := by
    rcases Nat.lt_or_ge i vec.length with hlt | hge
    · exact hlt
    · rw [List.getElem?_eq_none hge] at h
      cases h
  simp [List.getElem?_set, hlt]

theorem body_some {vec : List CChannelFader} {i : Nat} {ch : CChannelFader} (tr : Trace)
    (h : vec[i]? = some ch) :
    CAudioMixerBoard.SetMIDIPickupMode.body i vec tr
      = .ok (vec.set i (resetIfUsed ch),
             { tr with accesses := tr.accesses ++ bodyAccesses i ch }) := by
  unfold CAudioMixerBoard.SetMIDIPickupMode.body
  rw [slotAt_some tr h]
  cases hused : ch.bMIDICtrlUsed with
  | false =>
    have hset : vec.set i ch = vec := by
      apply List.ext_getElem?
      intro j
      by_cases hj : i = j
      · subst hj
        rw [getElem?_set_same ch h, h]
      · simp [List.getElem?_set, hj]
    simp [CChannelFader.GetMIDICtrlUsed, hused, resetIfUsed, bodyAccesses, hset]
  | true =>
    have h1 := getElem?_set_same (ch.SetFaderPickedUp false) h
    have h2 := getElem?_set_same ((ch.SetFaderPickedUp false).SetPanPickedUp false) h1
    have h3 := getElem?_set_same
      (((ch.SetFaderPickedUp false).SetPanPickedUp false).SetLastMIDIFaderVal (-1)) h2
    simp only [CChannelFader.GetMIDICtrlUsed, hused, if_true]
    rw [callOnSlot_some _ _ h]
    simp only
    rw [callOnSlot_some _ _ h1]
    simp only
    rw [callOnSlot_some _ _ h2]
    simp only
    rw [callOnSlot_some _ _ h3]
    simp [resetIfUsed, bodyAccesses, hused, List.set_set, CChannelFader.SetFaderPickedUp,
      CChannelFader.SetPanPickedUp, CChannelFader.SetLastMIDIFaderVal,
      CChannelFader.SetLastMIDIPanVal]

theorem getElem?_of_lt_length {vec : List CChannelFader} {i : Nat} (h : i < vec.length) :
    ∃ ch, vec[i]? = some ch :=
  ⟨vec[i], List.getElem?_eq_getElem h⟩

/-- The loop run from counter value `i` with enough fuel on a vector of at
least `MAX_NUM_CHANNELS` slots: it returns, the slots `i .. MAX_NUM_CHANNELS - 1`
are reset when under controller control and all others are as before, the
body is entered with `i, i + 1, .., MAX_NUM_CHANNELS - 1` in this order, and
every new element access is to one of these indices. -/
theorem loop_spec (MAX_NUM_CHANNELS : Nat) :
    ∀ (fuel i : Nat) (vec : List CChannelFader) (tr : Trace),
      MAX_NUM_CHANNELS ≤ i + fuel → MAX_NUM_CHANNELS ≤ vec.length →
      ∃ vec1 tr1,
        CAudioMixerBoard.SetMIDIPickupMode.loop MAX_NUM_CHANNELS fuel i vec tr = .ok (vec1, tr1) ∧
        vec1.length = vec.length ∧
        (∀ j, vec1[j]? = if i ≤ j ∧ j < MAX_NUM_CHANNELS then (vec[j]?).map resetIfUsed
                         else vec[j]?) ∧
        tr1.iterations = tr.iterations ++ List.range' i (MAX_NUM_CHANNELS - i) ∧
        (∀ a ∈ tr1.accesses, a ∈ tr.accesses ∨ (i ≤ a ∧ a < MAX_NUM_CHANNELS)) ∧
        (∀ a, (a ∈ tr.accesses ∨ (i ≤ a ∧ a < MAX_NUM_CHANNELS)) → a ∈ tr1.accesses) := by
  intro fuel
  induction fuel with
  | zero =>
    intro i vec tr hfuel _
    have hi : ¬ i < MAX_NUM_CHANNELS := by omega
    refine ⟨vec, tr, ?_, rfl, ?_, ?_, ?_, ?_⟩
    · simp only [CAudioMixerBoard.SetMIDIPickupMode.loop, if_neg hi]
    · intro j
      have : ¬ (i ≤ j ∧ j < MAX_NUM_CHANNELS) := by omega
      rw [if_neg this]
    · have : MAX_NUM_CHANNELS - i = 0 := by omega
      simp [this]
    · intro a ha
      exact Or.inl ha
    · intro a ha
      rcases ha with ha | ha
      · exact ha
      · omega
  | succ fuel ih =>
    intro i vec tr hfuel hsize
    by_cases hi : i < MAX_NUM_CHANNELS
    · obtain ⟨ch, hch⟩ := getElem?_of_lt_length (show i < vec.length by omega)
      have hlen : MAX_NUM_CHANNELS ≤ (vec.set i (resetIfUsed ch)).length := by
        rw [List.length_set]
        exact hsize
      obtain ⟨vec1, tr1, hrun, hlen1, hvec1, hit1, hacc1, hcov1⟩ :=
        ih (i + 1) (vec.set i (resetIfUsed ch))
          { accesses := tr.accesses ++ bodyAccesses i ch, iterations := tr.iterations ++ [i] }
          (by omega) hlen
      have hmem : ∀ a, a ∈ bodyAccesses i ch ↔ a = i := by
        intro a
        unfold bodyAccesses
        split <;> simp
      refine ⟨vec1, tr1, ?_, ?_, ?_, ?_, ?_, ?_⟩
      · simp only [CAudioMixerBoard.SetMIDIPickupMode.loop, if_pos hi]
        rw [body_some _ hch]
        exact hrun
      · rw [hlen1, List.length_set]
      · intro j
        rw [hvec1 j]
        by_cases hij : i = j
        · subst hij
          have h1 : ¬ (i + 1 ≤ i ∧ i < MAX_NUM_CHANNELS) := by omega
          have h2 : i ≤ i ∧ i < MAX_NUM_CHANNELS := ⟨Nat.le_refl i, hi⟩
          rw [if_neg h1, if_pos h2, getElem?_set_same _ hch, hch]
          rfl
        · have hset : (vec.set i (resetIfUsed ch))[j]? = vec[j]? := by
            simp [List.getElem?_set, hij]
          rw [hset]
          by_cases hc : i ≤ j ∧ j < MAX_NUM_CHANNELS
          · have hc1 : i + 1 ≤ j ∧ j < MAX_NUM_CHANNELS := by omega
            rw [if_pos hc, if_pos hc1]
          · have hc1 : ¬ (i + 1 ≤ j ∧ j < MAX_NUM_CHANNELS) := by omega
            rw [if_neg hc, if_neg hc1]
      · rw [hit1]
        have hsplit : MAX_NUM_CHANNELS - i = (MAX_NUM_CHANNELS - (i + 1)) + 1 := by omega
        rw [hsplit, List.range'_succ]
        simp
      · intro a ha
        rcases hacc1 a ha with h | h
        · rcases List.mem_append.mp h with h | h
          · exact Or.inl h
          · right
            rw [(hmem a).mp h]
            omega
        · right
          omega
      · intro a ha
        apply hcov1
        rcases ha with ha | ha
        · exact Or.inl (List.mem_append.mpr (Or.inl ha))
        · by_cases hai : a = i
          · exact Or.inl (List.mem_append.mpr (Or.inr ((hmem a).mpr hai)))
          · right
            omega
    · refine ⟨vec, tr, ?_, rfl, ?_, ?_, ?_, ?_⟩
      · simp only [CAudioMixerBoard.SetMIDIPickupMode.loop, if_neg hi]
      · intro j
        have : ¬ (i ≤ j ∧ j < MAX_NUM_CHANNELS) := by omega
        rw [if_neg this]
      · have : MAX_NUM_CHANNELS - i = 0 := by omega
        simp [this]
      · intro a ha
        exact Or.inl ha
      · intro a ha
        rcases ha with ha | ha
        · exact ha
        · omega

/-- `SetMIDIPickupMode` on a board of at least `MAX_NUM_CHANNELS` slots with
at least `MAX_NUM_CHANNELS` units of fuel: the run returns, and the result is
the old board with the new mode and the slots below `MAX_NUM_CHANNELS` reset
when under controller control. -/
theorem SetMIDIPickupMode_spec (MAX_NUM_CHANNELS fuel : Nat) (board : CAudioMixerBoard)
    (b : Bool) (hsize : MAX_NUM_CHANNELS ≤ board.vecpChanFader.length)
    (hfuel : MAX_NUM_CHANNELS ≤ fuel) :
    ∃ vec tr,
      CAudioMixerBoard.SetMIDIPickupMode MAX_NUM_CHANNELS fuel board b
        = .ok ({ board with bMIDIPickupModeEnabled := b, vecpChanFader := vec }, tr) ∧
      vec.length = board.vecpChanFader.length ∧
      (∀ j, vec[j]? = if j < MAX_NUM_CHANNELS then (board.vecpChanFader[j]?).map resetIfUsed
                      else board.vecpChanFader[j]?) ∧
      tr.iterations = List.range MAX_NUM_CHANNELS ∧
      (∀ a, a ∈ tr.accesses ↔ a < MAX_NUM_CHANNELS) := by
  obtain ⟨vec, tr, hrun, hlen, hvec, hit, hacc, hcov⟩ :=
    loop_spec MAX_NUM_CHANNELS fuel 0 board.vecpChanFader Trace.empty (by omega) hsize
  refine ⟨vec, tr, ?_, hlen, ?_, ?_, ?_⟩
  · simp only [CAudioMixerBoard.SetMIDIPickupMode, hrun]
  · intro j
    rw [hvec j]
    simp
  · rw [hit, List.range_eq_range']
    simp [Trace.empty]
  · intro a
    constructor
    · intro ha
      rcases hacc a ha with h | h
      · simp [Trace.empty] at h
      · exact h.2
    · intro ha
      exact hcov a (Or.inr ⟨Nat.zero_le a, ha⟩)

theorem resetIfUsed_flag (ch : CChannelFader) :
    (resetIfUsed ch).bMIDICtrlUsed = ch.bMIDICtrlUsed := by
  unfold resetIfUsed
  split <;> rfl

theorem resetIfUsed_of_used (ch : CChannelFader) (h : ch.bMIDICtrlUsed = true) :
    (resetIfUsed ch).bFaderPickedUp = false ∧ (resetIfUsed ch).bPanPickedUp = false ∧
    (resetIfUsed ch).iLastMIDIFaderVal = -1 ∧ (resetIfUsed ch).iLastMIDIPanVal = -1 := by
  unfold resetIfUsed
  rw [if_pos h]
  exact ⟨rfl, rfl, rfl, rfl⟩

theorem resetIfUsed_of_not_used (ch : CChannelFader) (h : ch.bMIDICtrlUsed = false) :
    resetIfUsed ch = ch := by
  unfold resetIfUsed
  rw [if_neg (by simp [h])]

theorem resetIfUsed_frame (ch : CChannelFader) :
    { resetIfUsed ch with
        iLastMIDIFaderVal := ch.iLastMIDIFaderVal
        iLastMIDIPanVal := ch.iLastMIDIPanVal
        bFaderPickedUp := ch.bFaderPickedUp
        bPanPickedUp := ch.bPanPickedUp } = ch := by
  unfold resetIfUsed
  split <;> rfl

/-! ## Theorems: `CAudioMixerBoard` -/

/-- C2: on a board whose slot array holds `MAX_NUM_CHANNELS` slots, for every
boolean `b` (equal to the current mode or not) `SetMIDIPickupMode ( b )`
returns, the pickup-mode flag of the result is `b`, and every channel index
below `MAX_NUM_CHANNELS` whose controller-in-use flag is set (the flag is the
same before and after the call) has both axes not picked up and both last
controller values `-1`. -/
theorem SetMIDIPickupMode_resets_controlled (MAX_NUM_CHANNELS fuel : Nat)
    (board : CAudioMixerBoard) (b : Bool)
    (hsize : board.vecpChanFader.length = MAX_NUM_CHANNELS) (hfuel : MAX_NUM_CHANNELS ≤ fuel) :
    ∃ board1 tr,
      CAudioMixerBoard.SetMIDIPickupMode MAX_NUM_CHANNELS fuel board b = .ok (board1, tr) ∧
      board1.bMIDIPickupModeEnabled = b ∧
      ∀ i, i < MAX_NUM_CHANNELS → ∃ ch ch1,
        board.vecpChanFader[i]? = some ch ∧ board1.vecpChanFader[i]? = some ch1 ∧
        ch1.GetMIDICtrlUsed = ch.GetMIDICtrlUsed ∧
        (ch1.GetMIDICtrlUsed = true →
          ch1.GetFaderPickedUp = false ∧ ch1.GetPanPickedUp = false ∧
          ch1.GetLastMIDIFaderVal = -1 ∧ ch1.GetLastMIDIPanVal = -1) := by
  obtain ⟨vec, tr, hrun, _, hvec, _, _⟩ :=
    SetMIDIPickupMode_spec MAX_NUM_CHANNELS fuel board b (by omega) hfuel
  refine ⟨_, tr, hrun, rfl, ?_⟩
  intro i hi
  obtain ⟨ch, hch⟩ := getElem?_of_lt_length (show i < board.vecpChanFader.length by omega)
  refine ⟨ch, resetIfUsed ch, hch, ?_, resetIfUsed_flag ch, ?_⟩
  · show vec[i]? = some (resetIfUsed ch)
    rw [hvec i, if_pos hi, hch]
    rfl
  · intro hused
    have hused1 : ch.bMIDICtrlUsed = true := by
      rw [← resetIfUsed_flag ch]
      exact hused
    exact resetIfUsed_of_used ch hused1

theorem SetMIDIPickupMode_resets_controlled_witness :
    ∃ board1 tr,
      CAudioMixerBoard.SetMIDIPickupMode 3 3 sampleBoard true = .ok (board1, tr) ∧
      board1.bMIDIPickupModeEnabled = true :=
  let ⟨board1, tr, hrun, hmode, _⟩ :=
    SetMIDIPickupMode_resets_controlled 3 3 sampleBoard true rfl (Nat.le_refl 3)
  ⟨board1, tr, hrun, hmode⟩

/-- C4: `GetMIDICtrlUsed ( iChannelIdx )` returns `false` for every index
below `0` or not below `MAX_NUM_CHANNELS`, without an element access to the
slot array and whatever the array holds; for every index in
`[0, MAX_NUM_CHANNELS)`, on a board of `MAX_NUM_CHANNELS` slots, it returns
the controller-in-use flag of the slot at that index, after the one element
access to that slot. -/
theorem GetMIDICtrlUsed_index (MAX_NUM_CHANNELS : Nat) (board : CAudioMixerBoard)
    (iChannelIdx : Int) :
    ((iChannelIdx < 0 ∨ iChannelIdx ≥ (MAX_NUM_CHANNELS : Int)) →
      CAudioMixerBoard.GetMIDICtrlUsed MAX_NUM_CHANNELS board iChannelIdx
        = .ok (false, { accesses := [], iterations := [] })) ∧
    (0 ≤ iChannelIdx → iChannelIdx < (MAX_NUM_CHANNELS : Int) →
      MAX_NUM_CHANNELS < 2 ^ 31 → board.vecpChanFader.length = MAX_NUM_CHANNELS →
      ∃ ch, board.vecpChanFader[iChannelIdx.toNat]? = some ch ∧
        CAudioMixerBoard.GetMIDICtrlUsed MAX_NUM_CHANNELS board iChannelIdx
          = .ok (ch.GetMIDICtrlUsed, { accesses := [iChannelIdx.toNat], iterations := [] })) := by
  constructor
  · intro hout
    have hcond : ¬ (iChannelIdx ≥ 0 ∧ iChannelIdx < (MAX_NUM_CHANNELS : Int)) := by omega
    simp only [CAudioMixerBoard.GetMIDICtrlUsed, if_neg hcond, Trace.empty]
  · intro h0 h1 hmax hsize
    have hcond : iChannelIdx ≥ 0 ∧ iChannelIdx < (MAX_NUM_CHANNELS : Int) := ⟨h0, h1⟩
    have hcast : (iChannelIdx % 2 ^ 64).toNat = iChannelIdx.toNat := by omega
    obtain ⟨ch, hch⟩ :=
      getElem?_of_lt_length (show iChannelIdx.toNat < board.vecpChanFader.length by omega)
    refine ⟨ch, hch, ?_⟩
    simp only [CAudioMixerBoard.GetMIDICtrlUsed, if_pos hcond, hcast]
    rw [slotAt_some _ hch]
    simp [Trace.empty]

theorem GetMIDICtrlUsed_index_witness :
    CAudioMixerBoard.GetMIDICtrlUsed 3 sampleBoard (-1)
        = .ok (false, { accesses := [], iterations := [] }) ∧
    ∃ ch, sampleBoard.vecpChanFader[(1 : Int).toNat]? = some ch ∧
      CAudioMixerBoard.GetMIDICtrlUsed 3 sampleBoard 1
        = .ok (ch.GetMIDICtrlUsed, { accesses := [(1 : Int).toNat], iterations := [] }) :=
  ⟨(GetMIDICtrlUsed_index 3 sampleBoard (-1)).1 (Or.inl (by decide)),
   (GetMIDICtrlUsed_index 3 sampleBoard 1).2 (by decide) (by decide) (by decide) rfl⟩

/-- C8: on a board whose slot array holds exactly `MAX_NUM_CHANNELS` slots,
`SetMIDIPickupMode` returns for every input once it has `MAX_NUM_CHANNELS`
units of fuel (the loop terminates and no element access is out of bounds),
every element access it makes is below the size of the array, and the loop
body is entered with the counter values `0, 1, .., MAX_NUM_CHANNELS - 1`,
each exactly once; `GetMIDICtrlUsed` returns for every index, and every
element access it makes is below the size of the array. -/
theorem slot_accesses_in_bounds (MAX_NUM_CHANNELS fuel : Nat) (board : CAudioMixerBoard)
    (b : Bool) (hsize : board.vecpChanFader.length = MAX_NUM_CHANNELS)
    (hfuel : MAX_NUM_CHANNELS ≤ fuel) :
    (∃ board1 tr,
      CAudioMixerBoard.SetMIDIPickupMode MAX_NUM_CHANNELS fuel board b = .ok (board1, tr) ∧
      (∀ a ∈ tr.accesses, a < board.vecpChanFader.length) ∧
      tr.iterations = List.range MAX_NUM_CHANNELS ∧
      tr.iterations.Nodup ∧
      (∀ i, i ∈ tr.iterations ↔ i < MAX_NUM_CHANNELS) ∧
      (∀ i, i < MAX_NUM_CHANNELS → tr.iterations.count i = 1)) ∧
    (∀ iChannelIdx : Int, ∃ r tr,
      CAudioMixerBoard.GetMIDICtrlUsed MAX_NUM_CHANNELS board iChannelIdx = .ok (r, tr) ∧
      ∀ a ∈ tr.accesses, a < board.vecpChanFader.length) := by
  constructor
  · obtain ⟨vec, tr, hrun, _, _, hit, hacc⟩ :=
      SetMIDIPickupMode_spec MAX_NUM_CHANNELS fuel board b (by omega) hfuel
    refine ⟨_, tr, hrun, ?_, hit, ?_, ?_, ?_⟩
    · intro a ha
      rw [hsize]
      exact (hacc a).mp ha
    · rw [hit]
      exact List.nodup_range MAX_NUM_CHANNELS
    · intro i
      rw [hit, List.mem_range]
    · intro i hi
      rw [hit]
      exact List.count_eq_one_of_mem (List.nodup_range MAX_NUM_CHANNELS) (List.mem_range.mpr hi)
  · intro iChannelIdx
    by_cases hcond : iChannelIdx ≥ 0 ∧ iChannelIdx < (MAX_NUM_CHANNELS : Int)
    · have hlt : (iChannelIdx % 2 ^ 64).toNat < board.vecpChanFader.length := by omega
      obtain ⟨ch, hch⟩ := getElem?_of_lt_length hlt
      refine ⟨ch.GetMIDICtrlUsed,
        { accesses := [(iChannelIdx % 2 ^ 64).toNat], iterations := [] }, ?_, ?_⟩
      · simp only [CAudioMixerBoard.GetMIDICtrlUsed, if_pos hcond]
        rw [slotAt_some _ hch]
        simp [Trace.empty]
      · intro a ha
        simp only [List.mem_singleton] at ha
        rw [ha]
        exact hlt
    · refine ⟨false, Trace.empty, ?_, ?_⟩
      · simp only [CAudioMixerBoard.GetMIDICtrlUsed, if_neg hcond]
      · intro a ha
        simp [Trace.empty] at ha

theorem slot_accesses_in_bounds_witness :
    (∃ board1 tr,
      CAudioMixerBoard.SetMIDIPickupMode 3 3 sampleBoard false = .ok (board1, tr) ∧
      tr.iterations = List.range 3) ∧
    (∃ r tr, CAudioMixerBoard.GetMIDICtrlUsed 3 sampleBoard 7 = .ok (r, tr) ∧
      ∀ a ∈ tr.accesses, a < sampleBoard.vecpChanFader.length) :=
  let ⟨⟨board1, tr, hrun, _, hit, _⟩, hget⟩ :=
    slot_accesses_in_bounds 3 3 sampleBoard false rfl (Nat.le_refl 3)
  ⟨⟨board1, tr, hrun, hit⟩, hget 7⟩

/-- C9: on a board whose slot array holds `MAX_NUM_CHANNELS` slots,
`SetMIDIPickupMode ( b )` returns a board that differs from the old one at
most in the mode flag and the slot array; the array keeps its size; no
channel's controller-in-use flag changes; a channel whose flag is not set is
left as it was, all four pickup fields included; and a channel whose flag is
set changes in the four pickup fields only. -/
theorem SetMIDIPickupMode_frame (MAX_NUM_CHANNELS fuel : Nat) (board : CAudioMixerBoard)
    (b : Bool) (hsize : board.vecpChanFader.length = MAX_NUM_CHANNELS)
    (hfuel : MAX_NUM_CHANNELS ≤ fuel) :
    ∃ board1 tr,
      CAudioMixerBoard.SetMIDIPickupMode MAX_NUM_CHANNELS fuel board b = .ok (board1, tr) ∧
      { board1 with
          vecpChanFader := board.vecpChanFader
          bMIDIPickupModeEnabled := board.bMIDIPickupModeEnabled } = board ∧
      board1.vecpChanFader.length = board.vecpChanFader.length ∧
      ∀ (i : Nat) (ch : CChannelFader), board.vecpChanFader[i]? = some ch →
        ∃ ch1 : CChannelFader,
        board1.vecpChanFader[i]? = some ch1 ∧
        ch1.GetMIDICtrlUsed = ch.GetMIDICtrlUsed ∧
        (ch.GetMIDICtrlUsed = false →
          ch1 = ch ∧
          ch1.GetFaderPickedUp = ch.GetFaderPickedUp ∧
          ch1.GetPanPickedUp = ch.GetPanPickedUp ∧
          ch1.GetLastMIDIFaderVal = ch.GetLastMIDIFaderVal ∧
          ch1.GetLastMIDIPanVal = ch.GetLastMIDIPanVal) ∧
        { ch1 with
            iLastMIDIFaderVal := ch.iLastMIDIFaderVal
            iLastMIDIPanVal := ch.iLastMIDIPanVal
            bFaderPickedUp := ch.bFaderPickedUp
            bPanPickedUp := ch.bPanPickedUp } = ch := by
  obtain ⟨vec, tr, hrun, hlen, hvec, _, _⟩ :=
    SetMIDIPickupMode_spec MAX_NUM_CHANNELS fuel board b (by omega) hfuel
  refine ⟨_, tr, hrun, rfl, hlen, ?_⟩
  intro i ch hch
  have hi : i < MAX_NUM_CHANNELS := by
    rcases Nat.lt_or_ge i board.vecpChanFader.length with hlt | hge
    · omega
    · rw [List.getElem?_eq_none hge] at hch
      cases hch
  refine ⟨resetIfUsed ch, ?_, resetIfUsed_flag ch, ?_, resetIfUsed_frame ch⟩
  · show vec[i]? = some (resetIfUsed ch)
    rw [hvec i, if_pos hi, hch]
    rfl
  · intro hfree
    have heq := resetIfUsed_of_not_used ch hfree
    rw [heq]
    exact ⟨rfl, rfl, rfl, rfl, rfl⟩

theorem SetMIDIPickupMode_frame_witness :
    ∃ board1 tr,
      CAudioMixerBoard.SetMIDIPickupMode 3 3 sampleBoard true = .ok (board1, tr) ∧
      ∃ ch1, board1.vecpChanFader[1]? = some ch1 ∧ ch1 = sampleFreeFader ∧
        ch1.GetLastMIDIFaderVal = 64 ∧ ch1.GetFaderPickedUp = true :=
  let ⟨board1, tr, hrun, _, _, hslots⟩ :=
    SetMIDIPickupMode_frame 3 3 sampleBoard true rfl (Nat.le_refl 3)
  let ⟨ch1, hch1, _, hfree, _⟩ := hslots 1 sampleFreeFader rfl
  ⟨board1, tr, hrun, ch1, hch1, (hfree rfl).1, (hfree rfl).2.2.2.1, (hfree rfl).2.1⟩

end Jamulus
